import Mathlib

/-!
# `either.h`: a move-only two-variant cell

A shallow embedding of the class template `either<TFirst, TSecond>` and of the
variant-inference trait `get_member_index`.

Conventions of the embedding.

* A C++ object type is a Lean `Type`; the two slot types of one cell are distinct C++ types
  (the union `member_t` declares one constructor per slot type).
* Facts that C++ settles at compile time for a source type `T` (is `T` implicitly convertible
  to a slot type, and which `member_t` constructor overload resolution selects for an rvalue
  of `T`) are carried by a `SourceType` descriptor.
* A callable is a state-passing function `α → σ → β × σ`: `σ` is whatever outside state the
  callable may touch (a call counter, for instance). A pure callable has `σ = Unit`.
* Reading a union member out of a slot that holds no live object of that member type has
  no defined result: the combinators return `none` there.
* Calls of the slot types' destructors and move constructors are recorded in a trace.
-/

/-! ## Variant inference -/

/-- The discriminant `enum class MemberIndex`. -/
inductive MemberIndex
  | None
  | First
  | Second
  deriving DecidableEq, Repr

/-- Modelled from the spec: `conditional_value_v<Cond, T, A, B>` comes from `custom_traits.h`,
which is not among the sources. Following the policy "prefer First if convertible, else
Second if convertible, else Neither", it is `A` when `Cond` holds and `B` otherwise. -/
def conditional_value_v {α : Type} (cond : Bool) (a b : α) : α :=
  if cond then a else b

/-- The result of `std::is_convertible_v<T, U>`, read off the implicit conversion from `T` to
`U` when there is one. -/
def is_convertible_v {T U : Type} (conversion : Option (T → U)) : Bool :=
  conversion.isSome

/-- One of the two value constructors of the union: `member_t(TFirst&&)` or
`member_t(TSecond&&)`. -/
inductive Overload
  | first
  | second
  deriving DecidableEq, Repr

/-- What the compiler knows about a source type `T` offered to a cell of
`either<TFirst, TSecond>`: the implicit conversion from `T` to each slot type, if any, and
the `member_t` constructor that overload resolution ranks best for an rvalue of `T` when
both constructors are viable. -/
structure SourceType (TFirst TSecond T : Type) where
  to_first : Option (T → TFirst)
  to_second : Option (T → TSecond)
  best : Overload

/-- The trait `get_member_index<TFirst, TSecond, T>::value`. -/
def get_member_index {TFirst TSecond T : Type} (src : SourceType TFirst TSecond T) :
    MemberIndex :=
  conditional_value_v (is_convertible_v src.to_first) MemberIndex.First
    (conditional_value_v (is_convertible_v src.to_second) MemberIndex.Second MemberIndex.None)

/-- The variable template `get_member_index_v`. -/
def get_member_index_v {TFirst TSecond T : Type} (src : SourceType TFirst TSecond T) :
    MemberIndex :=
  get_member_index src

/-! ## Storage -/

/-- The union `member_t`: `_c` when neither a `TFirst` nor a `TSecond` object is alive in
the storage (as after `member_t()`), `first f` when a `TFirst` object of value `f` is alive
in it, `second s` when a `TSecond` object of value `s` is. -/
inductive member_t (TFirst TSecond : Type)
  | _c
  | first (f : TFirst)
  | second (s : TSecond)
  deriving DecidableEq, Repr

/-- The read `member.first`: the live `TFirst` object, if there is one. -/
def member_t.read_first {TFirst TSecond : Type} : member_t TFirst TSecond → Option TFirst
  | member_t.first f => some f
  | _ => none

/-- The read `member.second`: the live `TSecond` object, if there is one. -/
def member_t.read_second {TFirst TSecond : Type} : member_t TFirst TSecond → Option TSecond
  | member_t.second s => some s
  | _ => none

/-- The initialiser `member(std::move(value))` for an rvalue of source type `T`: overload
resolution between `member_t(TFirst&&)` and `member_t(TSecond&&)`. A constructor is viable
when `T` converts to its parameter type; with both viable the better match is taken. With
neither viable the initialiser does not compile (the cell's constructor excludes this case
through its `enable_if`), and the storage is left as `_c`. -/
def member_t.init {TFirst TSecond T : Type} (src : SourceType TFirst TSecond T) (value : T) :
    member_t TFirst TSecond :=
  match src.to_first, src.to_second with
  | some toFirst, some toSecond =>
    match src.best with
    | Overload.first => member_t.first (toFirst value)
    | Overload.second => member_t.second (toSecond value)
  | some toFirst, none => member_t.first (toFirst value)
  | none, some toSecond => member_t.second (toSecond value)
  | none, none => member_t._c

/-- The cell `either<TFirst, TSecond>`: the discriminant `index` and the union `member`. -/
structure either (TFirst TSecond : Type) where
  index : MemberIndex
  member : member_t TFirst TSecond
  deriving DecidableEq, Repr

/-- The constraint of the converting constructor,
`std::disjunction_v<std::is_convertible<T, TFirst>, std::is_convertible<T, TSecond>>`:
the constructor exists for `T` only when this holds. -/
def either.enable_if {TFirst TSecond T : Type} (src : SourceType TFirst TSecond T) : Bool :=
  is_convertible_v src.to_first || is_convertible_v src.to_second

/-- The converting constructor `either(T&& value) : index(Index), member(std::move(value))`
with `Index = get_member_index_v<TFirst, TSecond, T>`. -/
def either.construct {TFirst TSecond T : Type} (src : SourceType TFirst TSecond T)
    (value : T) : either TFirst TSecond :=
  { index := get_member_index_v src, member := member_t.init src value }

/-- Implicit convertibility between the two slot types of a cell type, each way. -/
structure Convertibility (TFirst TSecond : Type) where
  first_to_second : Option (TFirst → TSecond)
  second_to_first : Option (TSecond → TFirst)

/-- The source type `T = TFirst`: it converts to `TFirst` by identity, and, binding
`TFirst&&` exactly, `member_t(TFirst&&)` is the best match. -/
def SourceType.of_first {TFirst TSecond : Type} (cv : Convertibility TFirst TSecond) :
    SourceType TFirst TSecond TFirst :=
  { to_first := some id, to_second := cv.first_to_second, best := Overload.first }

/-- The source type `T = TSecond`: it converts to `TSecond` by identity, and, binding
`TSecond&&` exactly, `member_t(TSecond&&)` is the best match. -/
def SourceType.of_second {TFirst TSecond : Type} (cv : Convertibility TFirst TSecond) :
    SourceType TFirst TSecond TSecond :=
  { to_first := cv.second_to_first, to_second := some id, best := Overload.second }

/-! ## Combinators

Each combinator takes the cell it is called on, the callables, and the outside state `s`;
it returns the value the C++ function returns together with the outside state afterwards.
The returned cell is built in place from the callable's result (no move constructor runs on
a returned prvalue). -/

/-- The member function `map`: on `index == First` it calls `mapFirstFunc` on `member.first`,
otherwise it calls `mapSecondFunc` on `member.second`; the result cell of type
`either<TNewFirst, TNewSecond>` is built from the returned value by the converting
constructor, with source type `TNewFirst` in the first branch and `TNewSecond` in the
second. -/
def either.map {TFirst TSecond TNewFirst TNewSecond σ : Type}
    (self : either TFirst TSecond) (cv : Convertibility TNewFirst TNewSecond)
    (mapFirstFunc : TFirst → σ → TNewFirst × σ) (mapSecondFunc : TSecond → σ → TNewSecond × σ)
    (s : σ) : Option (either TNewFirst TNewSecond × σ) :=
  if self.index = MemberIndex.First then
    self.member.read_first.map fun first =>
      ((either.construct (SourceType.of_first cv) (mapFirstFunc first s).1),
        (mapFirstFunc first s).2)
  else
    self.member.read_second.map fun second =>
      ((either.construct (SourceType.of_second cv) (mapSecondFunc second s).1),
        (mapSecondFunc second s).2)

/-- The member function `mapFirst`: `map` with the lambda
`[] (auto&& second) -> TSecond { return second; }` on the second branch. -/
def either.mapFirst {TFirst TSecond TNewFirst σ : Type}
    (self : either TFirst TSecond) (cv : Convertibility TNewFirst TSecond)
    (mapFirstFunc : TFirst → σ → TNewFirst × σ) (s : σ) :
    Option (either TNewFirst TSecond × σ) :=
  self.map cv mapFirstFunc (fun second s => (second, s)) s

/-- The member function `mapSecond`: `map` with the lambda
`[] (auto&& first) -> TFirst { return first; }` on the first branch. -/
def either.mapSecond {TFirst TSecond TNewSecond σ : Type}
    (self : either TFirst TSecond) (cv : Convertibility TFirst TNewSecond)
    (mapSecondFunc : TSecond → σ → TNewSecond × σ) (s : σ) :
    Option (either TFirst TNewSecond × σ) :=
  self.map cv (fun first s => (first, s)) mapSecondFunc s

/-- The member function `match`: on `index == First` it returns `matchFirst(member.first)`,
otherwise `matchSecond(member.second)`. Both callables have the one result type `TOutput`
(the `std::is_same_v` constraint of the template). -/
def either.match_ {TFirst TSecond TOutput σ : Type}
    (self : either TFirst TSecond)
    (matchFirst : TFirst → σ → TOutput × σ) (matchSecond : TSecond → σ → TOutput × σ)
    (s : σ) : Option (TOutput × σ) :=
  if self.index = MemberIndex.First then
    self.member.read_first.map fun first => matchFirst first s
  else
    self.member.read_second.map fun second => matchSecond second s

/-- The member function `foldFirst`: `match` with the lambda
`[] (auto&& second) -> either<TNewFirst, TSecond> { return second; }` on the second branch;
the lambda builds its result from the `TSecond` it was handed by the converting constructor
(the value category of the source is not tracked: it converts as `TSecond` does, and
`std::move(value)` binds `member_t(TSecond&&)` exactly). The constraint of `match` makes
the result type of `mapFirst` exactly `either<TNewFirst, TSecond>`, where `TNewFirst` is `either_traits<TNewResult>::First` (`custom_traits.h`, not among the sources:
here it is the first parameter of the callable's result type). -/
def either.foldFirst {TFirst TSecond TNewFirst σ : Type}
    (self : either TFirst TSecond) (cv : Convertibility TNewFirst TSecond)
    (mapFirst : TFirst → σ → either TNewFirst TSecond × σ) (s : σ) :
    Option (either TNewFirst TSecond × σ) :=
  self.match_ mapFirst
    (fun second s => (either.construct (SourceType.of_second cv) second, s)) s

/-- The member function `foldSecond`: `match` with the lambda
`[] (auto&& first) -> either<TFirst, TNewSecond> { return first; }` on the first branch;
the lambda builds its result from a `TFirst` by the converting constructor. -/
def either.foldSecond {TFirst TSecond TNewSecond σ : Type}
    (self : either TFirst TSecond) (cv : Convertibility TFirst TNewSecond)
    (mapSecond : TSecond → σ → either TFirst TNewSecond × σ) (s : σ) :
    Option (either TFirst TNewSecond × σ) :=
  self.match_ (fun first s => (either.construct (SourceType.of_first cv) first, s))
    mapSecond s

/-! ## Lifetime: cells in a store

Move construction, move assignment and destruction act on cells by address, and the two
cells of a move may be one and the same. Cells of one type `either<TFirst, TSecond>` live
in a store indexed by address; every call of a slot type's destructor or move constructor is
appended to the store's trace. The value of a moved-from object is not tracked: the object
stays alive in its slot with the value it had. -/

/-- A call the lifetime operations make on a slot type: the destructor `~TFirst()` or
`~TSecond()` on a slot (with the live object it ended, `none` when the slot held no live
object of that type), or the move constructor of `TFirst` or `TSecond` building a new object
from the given one. -/
inductive Event (TFirst TSecond : Type)
  | destroy_first (obj : Option TFirst)
  | destroy_second (obj : Option TSecond)
  | move_first (obj : TFirst)
  | move_second (obj : TSecond)
  deriving DecidableEq, Repr

/-- The cells of type `either<TFirst, TSecond>` by address, and the trace of calls so far. -/
structure Store (TFirst TSecond : Type) where
  cell : Nat → either TFirst TSecond
  trace : List (Event TFirst TSecond)

/-- The assignment `index = i` in the cell at `self`. -/
def Store.set_index {TFirst TSecond : Type} (st : Store TFirst TSecond) (self : Nat)
    (i : MemberIndex) : Store TFirst TSecond :=
  { st with cell := Function.update st.cell self { st.cell self with index := i } }

/-- The storage of the cell at `self` becomes `m`. -/
def Store.set_member {TFirst TSecond : Type} (st : Store TFirst TSecond) (self : Nat)
    (m : member_t TFirst TSecond) : Store TFirst TSecond :=
  { st with cell := Function.update st.cell self { st.cell self with member := m } }

/-- One more call at the end of the trace. -/
def Store.record {TFirst TSecond : Type} (st : Store TFirst TSecond)
    (e : Event TFirst TSecond) : Store TFirst TSecond :=
  { st with trace := st.trace ++ [e] }

/-- The storage after `member.first.~TFirst()`: a live `TFirst` object is gone. -/
def member_t.end_first {TFirst TSecond : Type} :
    member_t TFirst TSecond → member_t TFirst TSecond
  | member_t.first _ => member_t._c
  | m => m

/-- The storage after `member.second.~TSecond()`: a live `TSecond` object is gone. -/
def member_t.end_second {TFirst TSecond : Type} :
    member_t TFirst TSecond → member_t TFirst TSecond
  | member_t.second _ => member_t._c
  | m => m

/-- The private member function `deallocateMember` on the cell at `self`. -/
def Store.deallocateMember {TFirst TSecond : Type} (st : Store TFirst TSecond) (self : Nat) :
    Store TFirst TSecond :=
  let st :=
    if (st.cell self).index = MemberIndex.First then
      (st.record (Event.destroy_first (st.cell self).member.read_first)).set_member self
        (st.cell self).member.end_first
    else if (st.cell self).index = MemberIndex.Second then
      (st.record (Event.destroy_second (st.cell self).member.read_second)).set_member self
        (st.cell self).member.end_second
    else st
  st.set_index self MemberIndex.None

/-- The private member function `moveMember` on the cell at `self`, with `other` the cell
moved from. The placement-new move-constructs from `other.member.first` (or `.second`), which
has no defined result when that slot holds no live object. -/
def Store.moveMember {TFirst TSecond : Type} (st : Store TFirst TSecond) (self other : Nat) :
    Option (Store TFirst TSecond) :=
  let st := st.deallocateMember self
  let st := st.set_index self (st.cell other).index
  let st := st.set_index other MemberIndex.None
  if (st.cell self).index = MemberIndex.First then
    (st.cell other).member.read_first.map fun first =>
      (st.record (Event.move_first first)).set_member self (member_t.first first)
  else if (st.cell self).index = MemberIndex.Second then
    (st.cell other).member.read_second.map fun second =>
      (st.record (Event.move_second second)).set_member self (member_t.second second)
  else some st

/-- The destructor `~either()` of the cell at `self`. -/
def Store.destructor {TFirst TSecond : Type} (st : Store TFirst TSecond) (self : Nat) :
    Store TFirst TSecond :=
  st.deallocateMember self

/-- The move assignment `operator=(either&& other)` on the cell at `self`. -/
def Store.operator_assign {TFirst TSecond : Type} (st : Store TFirst TSecond)
    (self other : Nat) : Option (Store TFirst TSecond) :=
  st.moveMember self other

/-- The move constructor `either(either&& other)` building a new cell at `self`: `index` has
no initialiser, so it starts with an indeterminate value, and `member` starts as
`member_t()`; then `moveMember` runs. -/
def Store.move_construct {TFirst TSecond : Type} (st : Store TFirst TSecond)
    (self other : Nat) (indeterminate : MemberIndex) : Option (Store TFirst TSecond) :=
  Store.moveMember
    { st with
      cell := Function.update st.cell self ⟨indeterminate, member_t._c⟩ }
    self other

/-- A chain of move assignments, each a pair `(self, other)` standing for
`cell self = std::move(cell other)`, run in order. -/
def Store.assign_chain {TFirst TSecond : Type} (st : Store TFirst TSecond) :
    List (Nat × Nat) → Option (Store TFirst TSecond)
  | [] => some st
  | (self, other) :: rest =>
    (st.operator_assign self other).bind fun st => st.assign_chain rest

/-- The destructors of the cells at the given addresses, run in order. -/
def Store.destroy_all {TFirst TSecond : Type} (st : Store TFirst TSecond) :
    List Nat → Store TFirst TSecond
  | [] => st
  | self :: rest => (st.destructor self).destroy_all rest

/-- The destructor calls of a trace, in order. -/
def destructor_calls {TFirst TSecond : Type} :
    List (Event TFirst TSecond) → List (Event TFirst TSecond)
  | [] => []
  | Event.destroy_first obj :: rest => Event.destroy_first obj :: destructor_calls rest
  | Event.destroy_second obj :: rest => Event.destroy_second obj :: destructor_calls rest
  | _ :: rest => destructor_calls rest

/-- The destructor call that ends the life of the value a cell owns: one call on the slot
its tag names when that slot holds a live object, none for a cell that owns nothing. -/
def either.owned {TFirst TSecond : Type} (c : either TFirst TSecond) :
    List (Event TFirst TSecond) :=
  match c.index, c.member with
  | MemberIndex.First, member_t.first f => [Event.destroy_first (some f)]
  | MemberIndex.Second, member_t.second s => [Event.destroy_second (some s)]
  | _, _ => []

/-- The destructor calls `deallocateMember` makes on a cell: one on the slot the tag names,
none on a cell tagged `None`. -/
def either.deallocate_calls {TFirst TSecond : Type} (c : either TFirst TSecond) :
    List (Event TFirst TSecond) :=
  if c.index = MemberIndex.First then [Event.destroy_first c.member.read_first]
  else if c.index = MemberIndex.Second then [Event.destroy_second c.member.read_second]
  else []

/-- The move-constructor call that carries the value of a cell into another cell. -/
def either.transfer {TFirst TSecond : Type} (c : either TFirst TSecond) :
    List (Event TFirst TSecond) :=
  match c.index, c.member with
  | MemberIndex.First, member_t.first f => [Event.move_first f]
  | MemberIndex.Second, member_t.second s => [Event.move_second s]
  | _, _ => []

/-- The destructor calls made so far together with the calls still owed to the values owned
by the cells at addresses below `n`, as a multiset. -/
def Store.account {TFirst TSecond : Type} (st : Store TFirst TSecond) (n : Nat) :
    Multiset (Event TFirst TSecond) :=
  (destructor_calls st.trace : Multiset (Event TFirst TSecond)) +
    ∑ i ∈ Finset.range n, ((st.cell i).owned : Multiset (Event TFirst TSecond))

/-- The tag agrees with the storage: a cell tagged `First` holds a live `TFirst`, a cell
tagged `Second` a live `TSecond`. -/
def either.consistent {TFirst TSecond : Type} (c : either TFirst TSecond) : Prop :=
  match c.index, c.member with
  | MemberIndex.First, member_t.first _ => True
  | MemberIndex.Second, member_t.second _ => True
  | MemberIndex.None, _ => True
  | _, _ => False

/-- The cell holds a live value: it is tagged `First` over a live `TFirst`, or tagged
`Second` over a live `TSecond`. -/
def either.holds_value {TFirst TSecond : Type} (c : either TFirst TSecond) : Prop :=
  (∃ f, c = { index := MemberIndex.First, member := member_t.first f }) ∨
  (∃ s, c = { index := MemberIndex.Second, member := member_t.second s })

/-! ## Combinator calls on a cell in the store

A combinator is a member function called on a cell at some address. It hands the slot object
to the callable as an rvalue (`std::move(member.first)`, `std::move(member.second)`), so the
callable may change that object: a callable that takes its parameter by value
move-constructs the parameter from the slot object and leaves it moved-from, a callable that
takes a reference may leave it as it is. A callable on a slot object is therefore a function
`α → σ → (β × α) × σ`: from the object and the outside state to its result, the state it
leaves the object in, and the outside state afterwards. The bodies of `map` and `match`
contain no assignment to `index` and no destructor call. -/

/-- A callable that takes its parameter by value, as a callable on a slot object: the
parameter is move-constructed from the slot object, which is left in the state `left` gives
(the moved-from state of its type), and `f` runs on the parameter. -/
def by_value {α β σ : Type} (left : α → α) (f : α → σ → β × σ) : α → σ → (β × α) × σ :=
  fun a s => (((f a s).1, left a), (f a s).2)

/-- The call `map(mapFirstFunc, mapSecondFunc)` on the cell at `self`: the returned cell with
the outside state, and the store after the call, in which the slot object is as the callable
left it. -/
def Store.map {TFirst TSecond TNewFirst TNewSecond σ : Type} (st : Store TFirst TSecond)
    (self : Nat) (cv : Convertibility TNewFirst TNewSecond)
    (mapFirstFunc : TFirst → σ → (TNewFirst × TFirst) × σ)
    (mapSecondFunc : TSecond → σ → (TNewSecond × TSecond) × σ)
    (s : σ) : Option ((either TNewFirst TNewSecond × σ) × Store TFirst TSecond) :=
  if (st.cell self).index = MemberIndex.First then
    (st.cell self).member.read_first.map fun first =>
      ((either.construct (SourceType.of_first cv) (mapFirstFunc first s).1.1,
          (mapFirstFunc first s).2),
        st.set_member self (member_t.first (mapFirstFunc first s).1.2))
  else
    (st.cell self).member.read_second.map fun second =>
      ((either.construct (SourceType.of_second cv) (mapSecondFunc second s).1.1,
          (mapSecondFunc second s).2),
        st.set_member self (member_t.second (mapSecondFunc second s).1.2))

/-- The call `match(matchFirst, matchSecond)` on the cell at `self`: the returned value with
the outside state, and the store after the call, in which the slot object is as the callable
left it. -/
def Store.match_ {TFirst TSecond TOutput σ : Type} (st : Store TFirst TSecond)
    (self : Nat) (matchFirst : TFirst → σ → (TOutput × TFirst) × σ)
    (matchSecond : TSecond → σ → (TOutput × TSecond) × σ) (s : σ) :
    Option ((TOutput × σ) × Store TFirst TSecond) :=
  if (st.cell self).index = MemberIndex.First then
    (st.cell self).member.read_first.map fun first =>
      (((matchFirst first s).1.1, (matchFirst first s).2),
        st.set_member self (member_t.first (matchFirst first s).1.2))
  else
    (st.cell self).member.read_second.map fun second =>
      (((matchSecond second s).1.1, (matchSecond second s).2),
        st.set_member self (member_t.second (matchSecond second s).1.2))

/-- The call `foldFirst(mapFirst)` on the cell at `self`: `match` with the pass-through lambda
on the second branch. The lambda's `return second` builds the result cell by the converting
constructor, whose `member(std::move(value))` move-constructs from the slot object; `left`
gives the state the move constructor of `TSecond` leaves its source in. -/
def Store.foldFirst {TFirst TSecond TNewFirst σ : Type} (st : Store TFirst TSecond)
    (self : Nat) (cv : Convertibility TNewFirst TSecond) (left : TSecond → TSecond)
    (mapFirst : TFirst → σ → (either TNewFirst TSecond × TFirst) × σ) (s : σ) :
    Option ((either TNewFirst TSecond × σ) × Store TFirst TSecond) :=
  st.match_ self mapFirst
    (fun second s => ((either.construct (SourceType.of_second cv) second, left second), s)) s

/-- The call `foldSecond(mapSecond)` on the cell at `self`: `match` with the pass-through
lambda on the first branch. The lambda's `return first` builds the result cell by the
converting constructor, whose `member(std::move(value))` move-constructs from the slot
object; `left` gives the state the move constructor of `TFirst` leaves its source in. -/
def Store.foldSecond {TFirst TSecond TNewSecond σ : Type} (st : Store TFirst TSecond)
    (self : Nat) (cv : Convertibility TFirst TNewSecond) (left : TFirst → TFirst)
    (mapSecond : TSecond → σ → (either TFirst TNewSecond × TSecond) × σ) (s : σ) :
    Option ((either TFirst TNewSecond × σ) × Store TFirst TSecond) :=
  st.match_ self
    (fun first s => ((either.construct (SourceType.of_first cv) first, left first), s))
    mapSecond s

/-- Every move assignment of the chain run from `st` takes its value from a cell that is not
tagged `None` when the move runs (a cell left empty is only destroyed or assigned to). -/
def Store.sources_hold {TFirst TSecond : Type} (st : Store TFirst TSecond) :
    List (Nat × Nat) → Bool
  | [] => true
  | (self, other) :: rest =>
    decide ((st.cell other).index ≠ MemberIndex.None) &&
      match st.operator_assign self other with
      | some st1 => st1.sources_hold rest
      | none => false

/-! ## Callables -/

/-- The callable that runs `f` and then `g` on the result of `f`. -/
def then_call {α β γ σ : Type} (f : α → σ → β × σ) (g : β → σ → γ × σ) : α → σ → γ × σ :=
  fun a s => g (f a s).1 (f a s).2

/-- The identity callable. -/
def identity {α σ : Type} : α → σ → α × σ :=
  fun a s => (a, s)

/-! ## Call counting -/

/-- A pair of call counters, one per callable handed to a combinator. -/
structure CallCount where
  first_calls : Nat
  second_calls : Nat
  deriving DecidableEq, Repr

/-- The callable `f` instrumented to bump the first counter at each call; the counters ride
along with the outside state of `f`. -/
def count_first {α β σ : Type} (f : α → σ → β × σ) : α → σ × CallCount → β × (σ × CallCount) :=
  fun a s => ((f a s.1).1, ((f a s.1).2, { s.2 with first_calls := s.2.first_calls + 1 }))

/-- The callable `g` instrumented to bump the second counter at each call; the counters ride
along with the outside state of `g`. -/
def count_second {α β σ : Type} (g : α → σ → β × σ) :
    α → σ × CallCount → β × (σ × CallCount) :=
  fun a s => ((g a s.1).1, ((g a s.1).2, { s.2 with second_calls := s.2.second_calls + 1 }))

/-! ## Sample types

`long` is modelled by `Int` and `bool` by `Bool`; `bool` converts implicitly to `long`
(`false` to `0`, `true` to `1`) and `long` to `bool` (non-zero to `true`). -/

/-- Convertibility between the slot types of `either<long, bool>`. -/
def long_bool : Convertibility Int Bool :=
  { first_to_second := some fun n => decide (n ≠ 0),
    second_to_first := some fun b => if b then 1 else 0 }

/-- The source type `int*` (a pointer is modelled by its address) offered to a cell of
`either<long, bool>`: a pointer converts implicitly to `bool` (null to `false`) and does not
convert to `long`, so `member_t(bool&&)` is the only viable constructor. -/
def pointer_source : SourceType Int Bool Nat :=
  { to_first := none, to_second := some fun p => decide (p ≠ 0), best := Overload.second }

/-- Convertibility between the slot types of `either<int, std::string>`: neither converts
to the other. -/
def int_string : Convertibility Int String :=
  { first_to_second := none, second_to_first := none }

/-- Three cells of `either<long, std::string>` at addresses `0`, `1`, `2` (and beyond): the one
at `0` holds the first value `5`, the others hold the second value `"err"`; nothing has been
called yet. -/
def sample_store : Store Int String :=
  { cell := fun i =>
      if i = 0 then ⟨MemberIndex.First, member_t.first 5⟩
      else ⟨MemberIndex.Second, member_t.second "err"⟩,
    trace := [] }

/-- Cells of `either<long, bool>`, each built by the converting constructor from the `bool`
value `true`; nothing has been called yet. -/
def bool_built_store : Store Int Bool :=
  { cell := fun _ => either.construct (SourceType.of_second long_bool) true, trace := [] }

/-! ## Theorems -/

/-- C4: `get_member_index` is `First` whenever the source type converts to `TFirst` (also
when it converts to `TSecond` as well), `Second` when it converts to `TSecond` only, and
`None` when it converts to neither. -/
theorem get_member_index_policy {TFirst TSecond T : Type}
    (src : SourceType TFirst TSecond T) :
    (is_convertible_v src.to_first = true → get_member_index src = MemberIndex.First) ∧
    (is_convertible_v src.to_first = false → is_convertible_v src.to_second = true →
      get_member_index src = MemberIndex.Second) ∧
    (is_convertible_v src.to_first = false → is_convertible_v src.to_second = false →
      get_member_index src = MemberIndex.None) ∧
    (is_convertible_v src.to_first = true → is_convertible_v src.to_second = true →
      get_member_index src = MemberIndex.First) := by
  refine ⟨?_, ?_, ?_, ?_⟩ <;> intros <;> simp_all [get_member_index, conditional_value_v]

/-- C5: a cell built by the converting constructor from a source type the constructor
accepts carries the tag `First` or the tag `Second`, not both, and never `None`. -/
theorem construct_index_exclusive {TFirst TSecond T : Type}
    (src : SourceType TFirst TSecond T) (value : T)
    (accepted : either.enable_if src = true) :
    Xor' ((either.construct src value).index = MemberIndex.First)
        ((either.construct src value).index = MemberIndex.Second) ∧
      (either.construct src value).index ≠ MemberIndex.None := by
  simp only [either.enable_if, Bool.or_eq_true] at accepted
  cases hf : is_convertible_v src.to_first <;> cases hs : is_convertible_v src.to_second <;>
    simp_all [either.construct, get_member_index_v, get_member_index, conditional_value_v, Xor']

/-! ### The combinators on a cell that holds a value -/

/-- On a cell holding a `TFirst`, `map` calls the first callable only and builds the result
from its value as a first variant. -/
theorem either.map_of_first {TFirst TSecond TNewFirst TNewSecond σ : Type}
    (cv : Convertibility TNewFirst TNewSecond) (f : TFirst → σ → TNewFirst × σ)
    (g : TSecond → σ → TNewSecond × σ) (v : TFirst) (s : σ) :
    either.map ⟨MemberIndex.First, member_t.first v⟩ cv f g s =
      some (⟨MemberIndex.First, member_t.first (f v s).1⟩, (f v s).2) := by
  simp [either.map, member_t.read_first, either.construct, get_member_index_v,
    get_member_index, conditional_value_v, is_convertible_v, SourceType.of_first,
    member_t.init]
  cases cv.first_to_second <;> rfl

/-- On a cell holding a `TSecond`, `map` calls the second callable only and stores its value
in the second slot; the tag of the result is the one `get_member_index` infers for the source
type `TNewSecond`. -/
theorem either.map_of_second {TFirst TSecond TNewFirst TNewSecond σ : Type}
    (cv : Convertibility TNewFirst TNewSecond) (f : TFirst → σ → TNewFirst × σ)
    (g : TSecond → σ → TNewSecond × σ) (w : TSecond) (s : σ) :
    either.map ⟨MemberIndex.Second, member_t.second w⟩ cv f g s =
      some (⟨if is_convertible_v cv.second_to_first then MemberIndex.First
              else MemberIndex.Second, member_t.second (g w s).1⟩, (g w s).2) := by
  simp [either.map, member_t.read_second, either.construct, get_member_index_v,
    get_member_index, conditional_value_v, is_convertible_v, SourceType.of_second,
    member_t.init]
  cases cv.second_to_first <;> simp

/-- On a cell holding a `TFirst`, `match` returns what the first callable returns. -/
theorem either.match_of_first {TFirst TSecond TOutput σ : Type}
    (f : TFirst → σ → TOutput × σ) (g : TSecond → σ → TOutput × σ) (v : TFirst) (s : σ) :
    either.match_ ⟨MemberIndex.First, member_t.first v⟩ f g s = some (f v s) := by
  simp [either.match_, member_t.read_first]

/-- On a cell holding a `TSecond`, `match` returns what the second callable returns. -/
theorem either.match_of_second {TFirst TSecond TOutput σ : Type}
    (f : TFirst → σ → TOutput × σ) (g : TSecond → σ → TOutput × σ) (w : TSecond) (s : σ) :
    either.match_ ⟨MemberIndex.Second, member_t.second w⟩ f g s = some (g w s) := by
  simp [either.match_, member_t.read_second]

/-- C1, at an input where the claim fails: a cell of `either<std::string, long>` holding the
second value `7` is mapped with a first callable into `long` and the second callable
`n > 0` into `bool`. The result cell of `either<long, bool>` has `true` in its second slot
and carries the tag `First`: it does not hold the second variant. -/
theorem map_second_result_tagged_first :
    either.map (⟨MemberIndex.Second, member_t.second 7⟩ : either String Int) long_bool
        (fun (t : String) (u : Unit) => ((t.length : Int), u))
        (fun (n : Int) (u : Unit) => (decide (0 < n), u)) () =
      some (⟨MemberIndex.First, member_t.second true⟩, ()) := by
  rfl

/-- C2: one call of `map` on a cell holding a value calls exactly one callable, once: on a
first-holding cell the first counter goes up by one and the second stays, on a
second-holding cell the second goes up by one and the first stays. -/
theorem map_calls_exactly_one {TFirst TSecond TNewFirst TNewSecond σ : Type}
    (cv : Convertibility TNewFirst TNewSecond) (f : TFirst → σ → TNewFirst × σ)
    (g : TSecond → σ → TNewSecond × σ) (s : σ) (n : CallCount) :
    (∀ v : TFirst, ∃ r s1,
      either.map ⟨MemberIndex.First, member_t.first v⟩ cv (count_first f) (count_second g)
          (s, n) =
        some (r, (s1, ⟨n.first_calls + 1, n.second_calls⟩))) ∧
    (∀ w : TSecond, ∃ r s1,
      either.map ⟨MemberIndex.Second, member_t.second w⟩ cv (count_first f) (count_second g)
          (s, n) =
        some (r, (s1, ⟨n.first_calls, n.second_calls + 1⟩))) := by
  constructor
  · intro v
    exact ⟨_, _, either.map_of_first cv (count_first f) (count_second g) v (s, n)⟩
  · intro w
    exact ⟨_, _, either.map_of_second cv (count_first f) (count_second g) w (s, n)⟩

/-- C3: on a cell holding a value, `match` returns a value and never fails: the first
callable's result on a first-holding cell, the second callable's on a second-holding one. -/
theorem match_total {TFirst TSecond TOutput σ : Type}
    (f : TFirst → σ → TOutput × σ) (g : TSecond → σ → TOutput × σ) (s : σ) :
    (∀ v : TFirst,
      either.match_ ⟨MemberIndex.First, member_t.first v⟩ f g s = some (f v s)) ∧
    (∀ w : TSecond,
      either.match_ ⟨MemberIndex.Second, member_t.second w⟩ f g s = some (g w s)) :=
  ⟨fun v => either.match_of_first f g v s, fun w => either.match_of_second f g w s⟩

/-- On a cell holding a `TFirst`, `foldFirst` returns the cell its callable returns. -/
theorem either.foldFirst_of_first {TFirst TSecond TNewFirst σ : Type}
    (cv : Convertibility TNewFirst TSecond) (f : TFirst → σ → either TNewFirst TSecond × σ)
    (v : TFirst) (s : σ) :
    either.foldFirst ⟨MemberIndex.First, member_t.first v⟩ cv f s = some (f v s) := by
  simp [either.foldFirst, either.match_of_first]

/-- On a cell holding a `TSecond`, `foldSecond` returns the cell its callable returns. -/
theorem either.foldSecond_of_second {TFirst TSecond TNewSecond σ : Type}
    (cv : Convertibility TFirst TNewSecond) (g : TSecond → σ → either TFirst TNewSecond × σ)
    (w : TSecond) (s : σ) :
    either.foldSecond ⟨MemberIndex.Second, member_t.second w⟩ cv g s = some (g w s) := by
  simp [either.foldSecond, either.match_of_second]

/-- C8, at an input where the claim fails: a cell of `either<std::string, bool>` holding the
second value `true` goes through `mapFirst` with a callable into `long`. The callable is not
called (the first counter stays `0`) and `true` is passed into the second slot of the result,
but the result cell of `either<long, bool>` carries the tag `First`: it is not a
second-holding cell. -/
theorem mapFirst_passthrough_tagged_first :
    either.mapFirst (⟨MemberIndex.Second, member_t.second true⟩ : either String Bool)
        long_bool (count_first fun (t : String) (u : Unit) => ((t.length : Int), u))
        ((), ⟨0, 0⟩) =
      some (⟨MemberIndex.First, member_t.second true⟩, ((), ⟨0, 0⟩)) := by
  rfl

/-- C9: on a first-holding cell `foldFirst` returns exactly the cell the callable returns, tag
included, so a first-holding result and a second-holding result are both reachable;
`foldSecond` is the mirror on a second-holding cell. -/
theorem fold_returns_callable_result {TFirst TSecond TNew σ : Type} (s : σ) :
    (∀ (cv : Convertibility TNew TSecond) (f : TFirst → σ → either TNew TSecond × σ)
        (v : TFirst),
      either.foldFirst ⟨MemberIndex.First, member_t.first v⟩ cv f s = some (f v s)) ∧
    (∀ (cv : Convertibility TNew TSecond) (v : TFirst) (r : TNew), ∃ f,
      either.foldFirst ⟨MemberIndex.First, member_t.first v⟩ cv f s =
        some (⟨MemberIndex.First, member_t.first r⟩, s)) ∧
    (∀ (cv : Convertibility TNew TSecond) (v : TFirst) (e : TSecond), ∃ f,
      either.foldFirst ⟨MemberIndex.First, member_t.first v⟩ cv f s =
        some (⟨MemberIndex.Second, member_t.second e⟩, s)) ∧
    (∀ (cv : Convertibility TFirst TNew) (g : TSecond → σ → either TFirst TNew × σ)
        (w : TSecond),
      either.foldSecond ⟨MemberIndex.Second, member_t.second w⟩ cv g s = some (g w s)) ∧
    (∀ (cv : Convertibility TFirst TNew) (w : TSecond) (r : TNew), ∃ g,
      either.foldSecond ⟨MemberIndex.Second, member_t.second w⟩ cv g s =
        some (⟨MemberIndex.Second, member_t.second r⟩, s)) ∧
    (∀ (cv : Convertibility TFirst TNew) (w : TSecond) (e : TFirst), ∃ g,
      either.foldSecond ⟨MemberIndex.Second, member_t.second w⟩ cv g s =
        some (⟨MemberIndex.First, member_t.first e⟩, s)) := by
  refine ⟨fun cv f v => either.foldFirst_of_first cv f v s, fun cv v r => ?_,
    fun cv v e => ?_, fun cv g w => either.foldSecond_of_second cv g w s, fun cv w r => ?_,
    fun cv w e => ?_⟩
  · exact ⟨fun _ t => (⟨MemberIndex.First, member_t.first r⟩, t),
      either.foldFirst_of_first cv _ v s⟩
  · exact ⟨fun _ t => (⟨MemberIndex.Second, member_t.second e⟩, t),
      either.foldFirst_of_first cv _ v s⟩
  · exact ⟨fun _ t => (⟨MemberIndex.Second, member_t.second r⟩, t),
      either.foldSecond_of_second cv _ w s⟩
  · exact ⟨fun _ t => (⟨MemberIndex.First, member_t.first e⟩, t),
      either.foldSecond_of_second cv _ w s⟩

/-- C10, at an input where the claim fails: a cell of `either<std::string, bool>` holding the
second value `true` goes through `foldFirst` with a callable returning `either<long, bool>`.
The callable is not called (the first counter stays `0`) and `true` is passed into the second
slot of the result, but the result cell carries the tag `First`: it does not hold the second
variant. -/
theorem foldFirst_passthrough_tagged_first :
    either.foldFirst (⟨MemberIndex.Second, member_t.second true⟩ : either String Bool)
        long_bool
        (count_first fun (t : String) (u : Unit) =>
          ((⟨MemberIndex.First, member_t.first (t.length : Int)⟩ : either Int Bool), u))
        ((), ⟨0, 0⟩) =
      some (⟨MemberIndex.First, member_t.second true⟩, ((), ⟨0, 0⟩)) := by
  rfl

/-! ### Lifetime operations in the store -/

/-- `deallocateMember` touches no cell but its own. -/
theorem Store.deallocateMember_cell_other {TFirst TSecond : Type} (st : Store TFirst TSecond)
    (b i : Nat) (h : i ≠ b) : (st.deallocateMember b).cell i = st.cell i := by
  unfold Store.deallocateMember
  split_ifs <;> simp [Store.set_index, Store.set_member, Store.record, Function.update, h]

/-- `deallocateMember` leaves its cell tagged `None`. -/
theorem Store.deallocateMember_index {TFirst TSecond : Type} (st : Store TFirst TSecond)
    (b : Nat) : ((st.deallocateMember b).cell b).index = MemberIndex.None := by
  unfold Store.deallocateMember
  split_ifs <;> simp [Store.set_index, Store.set_member, Store.record, Function.update]

/-- `deallocateMember` adds to the trace the destructor calls of its cell, and nothing else. -/
theorem Store.deallocateMember_trace {TFirst TSecond : Type} (st : Store TFirst TSecond)
    (b : Nat) : (st.deallocateMember b).trace = st.trace ++ (st.cell b).deallocate_calls := by
  unfold Store.deallocateMember either.deallocate_calls
  split_ifs <;> simp [Store.set_index, Store.set_member, Store.record]

/-- `moveMember` between distinct cells, from a cell whose tag agrees with its storage: it
completes; the target takes the tag and value of the source (or stays empty after its own
value is destroyed, when the source is empty); the source is tagged `None`; no other cell
changes; the trace gains the target's destructor calls, then the move of the value. -/
theorem Store.moveMember_distinct {TFirst TSecond : Type} (st : Store TFirst TSecond)
    (a b : Nat) (h : a ≠ b) (ca : (st.cell a).consistent) :
    ∃ st1, st.moveMember b a = some st1 ∧
      st1.cell b = (if (st.cell a).index = MemberIndex.None
        then ⟨MemberIndex.None, ((st.deallocateMember b).cell b).member⟩ else st.cell a) ∧
      st1.cell a = ⟨MemberIndex.None, (st.cell a).member⟩ ∧
      (∀ i, i ≠ a → i ≠ b → st1.cell i = st.cell i) ∧
      st1.trace = st.trace ++ (st.cell b).deallocate_calls ++ (st.cell a).transfer := by
  have h1 : (st.deallocateMember b).cell a = st.cell a :=
    Store.deallocateMember_cell_other st b a h
  have h2 := Store.deallocateMember_index st b
  have h3 := Store.deallocateMember_trace st b
  have h4 : ∀ i, i ≠ b → (st.deallocateMember b).cell i = st.cell i :=
    fun i hi => Store.deallocateMember_cell_other st b i hi
  unfold Store.moveMember
  generalize st.deallocateMember b = sd at h1 h2 h3 h4 ⊢
  have hba : b ≠ a := fun e => h e.symm
  rcases hca : st.cell a with ⟨idx, m⟩
  rw [hca] at ca h1
  cases idx <;> cases m <;> simp [either.consistent] at ca <;>
    simp [Store.set_index, Store.set_member, Store.record, Function.update,
      h, hba, h1, h2, h3, either.transfer, member_t.read_first, member_t.read_second]
  all_goals
    intro i hia hib
    simp [hia, hib, h4 i hib]

/-- C6: for distinct cells `a` and `b`, with `a` holding a value and `b` in any state, the
move assignment `b = std::move(a)` completes, leaves in `b` the tag and the value `a` had,
and leaves `a` tagged `None`. -/
theorem move_assign_transfers {TFirst TSecond : Type} (st : Store TFirst TSecond)
    (a b : Nat) (distinct : a ≠ b) (live : (st.cell a).holds_value) :
    ∃ st1, st.operator_assign b a = some st1 ∧ st1.cell b = st.cell a ∧
      (st1.cell a).index = MemberIndex.None := by
  have ca : (st.cell a).consistent := by
    rcases live with ⟨f, hf⟩ | ⟨x, hx⟩
    · rw [hf]; trivial
    · rw [hx]; trivial
  obtain ⟨st1, h1, hb, ha, -, -⟩ := Store.moveMember_distinct st a b distinct ca
  refine ⟨st1, h1, ?_, ?_⟩
  · rw [hb]
    rcases live with ⟨f, hf⟩ | ⟨x, hx⟩
    · simp [hf]
    · simp [hx]
  · rw [ha]

/-! ### Accounting for destructor calls -/

/-- The destructor calls of a concatenated trace. -/
theorem destructor_calls_append {TFirst TSecond : Type}
    (xs ys : List (Event TFirst TSecond)) :
    destructor_calls (xs ++ ys) = destructor_calls xs ++ destructor_calls ys := by
  induction xs with
  | nil => rfl
  | cons x xs ih => cases x <;> simp [destructor_calls, ih]

/-- The calls owed to a cell's value are destructor calls. -/
theorem either.destructor_calls_owned {TFirst TSecond : Type} (c : either TFirst TSecond) :
    destructor_calls c.owned = c.owned := by
  rcases c with ⟨idx, m⟩
  cases idx <;> cases m <;> rfl

/-- A move of a value is not a destructor call. -/
theorem either.destructor_calls_transfer {TFirst TSecond : Type} (c : either TFirst TSecond) :
    destructor_calls c.transfer = [] := by
  rcases c with ⟨idx, m⟩
  cases idx <;> cases m <;> rfl

/-- On a cell whose tag agrees with its storage, `deallocateMember` makes exactly the call
owed to the value the cell owns. -/
theorem either.deallocate_calls_of_consistent {TFirst TSecond : Type}
    (c : either TFirst TSecond) (h : c.consistent) : c.deallocate_calls = c.owned := by
  rcases c with ⟨idx, m⟩
  cases idx <;> cases m <;> simp [either.consistent] at h <;> rfl

/-- A cell tagged `None` owns nothing. -/
theorem either.owned_of_none {TFirst TSecond : Type} (c : either TFirst TSecond)
    (h : c.index = MemberIndex.None) : c.owned = [] := by
  rcases c with ⟨idx, m⟩
  cases idx <;> cases m <;> simp_all [either.owned]

/-- A cell tagged `None` is consistent, whatever its storage. -/
theorem either.consistent_of_none {TFirst TSecond : Type} (c : either TFirst TSecond)
    (h : c.index = MemberIndex.None) : c.consistent := by
  rcases c with ⟨idx, m⟩
  cases idx <;> cases m <;> simp_all [either.consistent]

/-- A cell that holds a value is consistent. -/
theorem either.consistent_of_holds_value {TFirst TSecond : Type} (c : either TFirst TSecond)
    (h : c.holds_value) : c.consistent := by
  rcases h with ⟨f, hf⟩ | ⟨x, hx⟩
  · rw [hf]; trivial
  · rw [hx]; trivial

/-- Two families that agree on a finite set except at one index: their sums, each
completed by the other's term at that index, agree. -/
theorem sum_change_one {M : Type} [AddCommMonoid M] (s : Finset Nat) (g g1 : Nat → M)
    (a : Nat) (ha : a ∈ s) (rest : ∀ i ∈ s, i ≠ a → g1 i = g i) :
    (∑ i ∈ s, g1 i) + g a = (∑ i ∈ s, g i) + g1 a := by
  rw [← Finset.add_sum_erase s g ha, ← Finset.add_sum_erase s g1 ha]
  have e : ∑ i ∈ s.erase a, g1 i = ∑ i ∈ s.erase a, g i :=
    Finset.sum_congr rfl fun i hi =>
      rest i (Finset.mem_of_mem_erase hi) (Finset.ne_of_mem_erase hi)
  rw [e]
  abel

/-- Two families that agree on a finite set except at two distinct indices: their sums,
each completed by the other's terms at those indices, agree. -/
theorem sum_change_two {M : Type} [AddCommMonoid M] (s : Finset Nat) (g g1 : Nat → M)
    (a b : Nat) (ha : a ∈ s) (hb : b ∈ s) (hab : a ≠ b)
    (rest : ∀ i ∈ s, i ≠ a → i ≠ b → g1 i = g i) :
    (∑ i ∈ s, g1 i) + (g a + g b) = (∑ i ∈ s, g i) + (g1 a + g1 b) := by
  have hb1 : b ∈ s.erase a := Finset.mem_erase.2 ⟨fun e => hab e.symm, hb⟩
  rw [← Finset.add_sum_erase s g ha, ← Finset.add_sum_erase s g1 ha,
    ← Finset.add_sum_erase _ g hb1, ← Finset.add_sum_erase _ g1 hb1]
  have e : ∑ i ∈ (s.erase a).erase b, g1 i = ∑ i ∈ (s.erase a).erase b, g i :=
    Finset.sum_congr rfl fun i hi =>
      rest i (Finset.mem_of_mem_erase (Finset.mem_of_mem_erase hi))
        (Finset.ne_of_mem_erase (Finset.mem_of_mem_erase hi)) (Finset.ne_of_mem_erase hi)
  rw [e]
  abel

/-- A move between distinct consistent cells completes, keeps every cell consistent and
keeps the account: what the target owned is now a destructor call made, what the source
owned is now owned by the target. -/
theorem Store.account_moveMember {TFirst TSecond : Type} (st : Store TFirst TSecond)
    (n a b : Nat) (ha : a < n) (hb : b < n) (hab : a ≠ b)
    (cons : ∀ i, i < n → (st.cell i).consistent) :
    ∃ st1, st.moveMember b a = some st1 ∧ (∀ i, i < n → (st1.cell i).consistent) ∧
      st1.account n = st.account n := by
  obtain ⟨st1, h1, cb, ca, rest, tr⟩ := Store.moveMember_distinct st a b hab (cons a ha)
  have ob : (st1.cell b).owned = (st.cell a).owned := by
    rw [cb]
    split_ifs with hn
    · rw [either.owned_of_none _ hn, either.owned_of_none _ rfl]
    · rfl
  have oa : (st1.cell a).owned = [] := by rw [ca]; exact either.owned_of_none _ rfl
  refine ⟨st1, h1, ?_, ?_⟩
  · intro i hi
    by_cases hia : i = a
    · subst hia; rw [ca]; exact either.consistent_of_none _ rfl
    · by_cases hib : i = b
      · subst hib
        rw [cb]
        split_ifs with hn
        · exact either.consistent_of_none _ rfl
        · exact cons a ha
      · rw [rest i hia hib]; exact cons i hi
  · have key := sum_change_two (Finset.range n)
      (fun i => ((st.cell i).owned : Multiset (Event TFirst TSecond)))
      (fun i => ((st1.cell i).owned : Multiset (Event TFirst TSecond))) a b
      (Finset.mem_range.2 ha) (Finset.mem_range.2 hb) hab
      (fun i _ hia hib => by simp only [rest i hia hib])
    simp only [ob, oa] at key
    unfold Store.account
    rw [tr, destructor_calls_append, destructor_calls_append,
      either.destructor_calls_transfer,
      either.deallocate_calls_of_consistent _ (cons b hb), either.destructor_calls_owned]
    simp only [List.append_nil, ← Multiset.coe_add] at key ⊢
    have key2 : (∑ i ∈ Finset.range n, ((st1.cell i).owned : Multiset (Event TFirst TSecond))) +
        ((st.cell b).owned : Multiset (Event TFirst TSecond)) =
        ∑ i ∈ Finset.range n, ((st.cell i).owned : Multiset (Event TFirst TSecond)) := by
      apply add_right_cancel (b := ((st.cell a).owned : Multiset (Event TFirst TSecond)))
      rw [Multiset.coe_nil, zero_add] at key
      rw [← key]
      abel
    rw [← key2]
    abel

/-- Destroying a consistent cell keeps every cell consistent, keeps the account, leaves the
cell tagged `None` and leaves cells tagged `None` so. -/
theorem Store.account_destructor {TFirst TSecond : Type} (st : Store TFirst TSecond)
    (n b : Nat) (hb : b < n) (cons : ∀ i, i < n → (st.cell i).consistent) :
    (∀ i, i < n → ((st.destructor b).cell i).consistent) ∧
      (st.destructor b).account n = st.account n ∧
      ((st.destructor b).cell b).index = MemberIndex.None ∧
      (∀ i, (st.cell i).index = MemberIndex.None →
        ((st.destructor b).cell i).index = MemberIndex.None) := by
  have hidx := Store.deallocateMember_index st b
  have hother := Store.deallocateMember_cell_other st b
  have htrace := Store.deallocateMember_trace st b
  refine ⟨?_, ?_, hidx, ?_⟩
  · intro i hi
    by_cases hib : i = b
    · subst hib; exact either.consistent_of_none _ hidx
    · unfold Store.destructor; rw [hother i hib]; exact cons i hi
  · have key := sum_change_one (Finset.range n)
      (fun i => ((st.cell i).owned : Multiset (Event TFirst TSecond)))
      (fun i => (((st.destructor b).cell i).owned : Multiset (Event TFirst TSecond))) b
      (Finset.mem_range.2 hb)
      (fun i _ hib => by simp only [Store.destructor, hother i hib])
    have ob : ((st.destructor b).cell b).owned = [] := either.owned_of_none _ hidx
    simp only [ob, Multiset.coe_nil, add_zero] at key
    unfold Store.account
    rw [← key]
    unfold Store.destructor
    rw [htrace, destructor_calls_append,
      either.deallocate_calls_of_consistent _ (cons b hb), either.destructor_calls_owned,
      ← Multiset.coe_add]
    abel
  · intro i hi
    by_cases hib : i = b
    · subst hib; exact hidx
    · unfold Store.destructor; rw [hother i hib]; exact hi

/-- A chain of move assignments between distinct consistent cells completes and keeps the
account. -/
theorem Store.account_assign_chain {TFirst TSecond : Type} (n : Nat)
    (chain : List (Nat × Nat)) :
    ∀ st : Store TFirst TSecond,
      (∀ i, i < n → (st.cell i).consistent) →
      (∀ p ∈ chain, p.1 < n ∧ p.2 < n ∧ p.1 ≠ p.2) →
      ∃ st1, st.assign_chain chain = some st1 ∧ (∀ i, i < n → (st1.cell i).consistent) ∧
        st1.account n = st.account n := by
  induction chain with
  | nil => intro st cons _; exact ⟨st, rfl, cons, rfl⟩
  | cons p rest ih =>
    intro st cons inside
    obtain ⟨self, other⟩ := p
    obtain ⟨hs, ho, hne⟩ := inside (self, other) (List.mem_cons_self _ _)
    obtain ⟨st1, h1, cons1, acc1⟩ :=
      Store.account_moveMember st n other self ho hs (fun e => hne e.symm) cons
    obtain ⟨st2, h2, cons2, acc2⟩ :=
      ih st1 cons1 (fun q hq => inside q (List.mem_cons_of_mem _ hq))
    refine ⟨st2, ?_, cons2, acc2.trans acc1⟩
    simp [Store.assign_chain, Store.operator_assign, h1, h2]

/-- Destroying a list of consistent cells keeps the account and leaves each of them, and
each cell that was tagged `None`, tagged `None`. -/
theorem Store.account_destroy_all {TFirst TSecond : Type} (n : Nat) (ids : List Nat) :
    ∀ st : Store TFirst TSecond,
      (∀ i, i < n → (st.cell i).consistent) →
      (∀ i ∈ ids, i < n) →
      (st.destroy_all ids).account n = st.account n ∧
        (∀ i, i ∈ ids ∨ (st.cell i).index = MemberIndex.None →
          ((st.destroy_all ids).cell i).index = MemberIndex.None) := by
  induction ids with
  | nil => intro st _ _; exact ⟨rfl, fun i hi => by simpa using hi⟩
  | cons b rest ih =>
    intro st cons inside
    obtain ⟨cons1, acc1, hb, keep⟩ :=
      Store.account_destructor st n b (inside b (List.mem_cons_self _ _)) cons
    obtain ⟨acc2, none2⟩ := ih (st.destructor b) cons1
      (fun i hi => inside i (List.mem_cons_of_mem _ hi))
    refine ⟨acc2.trans acc1, ?_⟩
    intro i hi
    apply none2 i
    rcases hi with hi | hi
    · rcases List.mem_cons.1 hi with e | e
      · right; rw [e]; exact hb
      · left; exact e
    · right; exact keep i hi

/-- Cells whose tag agrees with their storage: start from cells at addresses below `n` that
each hold a value (a tag over a live object of the slot it names), run any chain of move
assignments between distinct cells among them, then destroy them all in any order: the chain
completes, and the destructor calls made are the ones made before plus exactly one per value
owned at the start (as multisets, so neither a missing nor a repeated call). In one move
assignment `b = std::move(a)` between distinct cells, the calls made are the destructor call
on the value `b` held (none if `b` was empty) followed by the move of the value of `a`, which
is not destroyed. -/
theorem destructor_runs_once_per_value {TFirst TSecond : Type} (st : Store TFirst TSecond)
    (n : Nat) (chain : List (Nat × Nat)) (order : List Nat)
    (live : ∀ i, i < n → (st.cell i).holds_value)
    (inside : ∀ p ∈ chain, p.1 < n ∧ p.2 < n ∧ p.1 ≠ p.2)
    (all : ∀ i, i ∈ order ↔ i < n) :
    (∃ st1, st.assign_chain chain = some st1 ∧
      (destructor_calls (st1.destroy_all order).trace : Multiset (Event TFirst TSecond)) =
        (destructor_calls st.trace : Multiset (Event TFirst TSecond)) +
          ∑ i ∈ Finset.range n, ((st.cell i).owned : Multiset (Event TFirst TSecond))) ∧
    (∀ (st0 : Store TFirst TSecond) (a b : Nat), a ≠ b → (st0.cell a).holds_value →
      (st0.cell b).consistent →
      ∃ st2, st0.operator_assign b a = some st2 ∧
        st2.trace = st0.trace ++ (st0.cell b).owned ++ (st0.cell a).transfer ∧
        destructor_calls st2.trace = destructor_calls st0.trace ++ (st0.cell b).owned) := by
  constructor
  · obtain ⟨st1, h1, cons1, acc1⟩ := Store.account_assign_chain n chain st
      (fun i hi => either.consistent_of_holds_value _ (live i hi)) inside
    obtain ⟨acc2, none2⟩ := Store.account_destroy_all n order st1 cons1
      (fun i hi => (all i).1 hi)
    refine ⟨st1, h1, ?_⟩
    have zero : ∑ i ∈ Finset.range n,
        ((((st1.destroy_all order).cell i).owned : List (Event TFirst TSecond)) :
          Multiset (Event TFirst TSecond)) = 0 := by
      apply Finset.sum_eq_zero
      intro i hi
      rw [either.owned_of_none _ (none2 i (Or.inl ((all i).2 (Finset.mem_range.1 hi))))]
      rfl
    have total := acc2.trans acc1
    unfold Store.account at total
    rw [zero, add_zero] at total
    exact total
  · intro st0 a b hab la cb
    obtain ⟨st2, h2, -, -, -, tr⟩ :=
      Store.moveMember_distinct st0 a b hab (either.consistent_of_holds_value _ la)
    rw [either.deallocate_calls_of_consistent _ cb] at tr
    refine ⟨st2, h2, tr, ?_⟩
    rw [tr, destructor_calls_append, destructor_calls_append,
      either.destructor_calls_transfer, either.destructor_calls_owned, List.append_nil]

/-- C5, at the source type `bool` offered to `either<long, bool>`. -/
theorem construct_index_exclusive_witness :
    either.enable_if (SourceType.of_second long_bool) = true ∧
      Xor' ((either.construct (SourceType.of_second long_bool) true).index = MemberIndex.First)
        ((either.construct (SourceType.of_second long_bool) true).index =
          MemberIndex.Second) ∧
      (either.construct (SourceType.of_second long_bool) true).index ≠ MemberIndex.None :=
  ⟨rfl, construct_index_exclusive (SourceType.of_second long_bool) true rfl⟩

/-- C6, at the sample store: the cell at `0` (holding the first value `5`) is moved into the
cell at `1` (holding the second value `"err"`). -/
theorem move_assign_transfers_witness :
    ∃ st1, sample_store.operator_assign 1 0 = some st1 ∧
      st1.cell 1 = sample_store.cell 0 ∧ (st1.cell 0).index = MemberIndex.None :=
  move_assign_transfers sample_store 0 1 (by decide) (Or.inl ⟨5, rfl⟩)

/-- The accounting of destructor calls at the sample store: the chain `1 = move(0)`,
`2 = move(1)`, `0 = move(2)` over the
three cells, which are then destroyed in the order `2`, `0`, `1`. -/
theorem destructor_runs_once_per_value_witness :
    ∃ st1, sample_store.assign_chain [(1, 0), (2, 1), (0, 2)] = some st1 ∧
      (destructor_calls (st1.destroy_all [2, 0, 1]).trace : Multiset (Event Int String)) =
        (destructor_calls sample_store.trace : Multiset (Event Int String)) +
          ∑ i ∈ Finset.range 3, ((sample_store.cell i).owned : Multiset (Event Int String)) :=
  (destructor_runs_once_per_value sample_store 3 [(1, 0), (2, 1), (0, 2)] [2, 0, 1]
    (fun i _ => by
      by_cases h : i = 0
      · exact Or.inl ⟨5, by simp [sample_store, h]⟩
      · exact Or.inr ⟨"err", by simp [sample_store, h]⟩)
    (by decide)
    (fun i => by simp; omega)).1

/-! ### Identity maps, destruction, and cells left empty -/

/-- C11, at an input where the claim fails: a cell of `either<long, bool>` built from a
non-null `int*` holds the second value `true`. `mapFirst(identity)` passes `true` into the
second slot of its result but tags the result `First`; `mapSecond(identity)` on that result
then reads `member.first`, where no object is alive, so the chain yields no cell equal to the
original. -/
theorem identity_maps_lose_second_cell :
    either.construct pointer_source 4096 = ⟨MemberIndex.Second, member_t.second true⟩ ∧
    either.mapFirst (either.construct pointer_source 4096) long_bool identity () =
      some (⟨MemberIndex.First, member_t.second true⟩, ()) ∧
    ((either.mapFirst (either.construct pointer_source 4096) long_bool identity ()).bind
      fun r => either.mapSecond r.1 long_bool identity r.2) = none := by
  refine ⟨rfl, rfl, rfl⟩

/-- A cell tagged `None` is left as it is by `deallocateMember`. -/
theorem Store.deallocateMember_of_none {TFirst TSecond : Type} (st : Store TFirst TSecond)
    (b : Nat) (h : (st.cell b).index = MemberIndex.None) : st.deallocateMember b = st := by
  have e : ({ st.cell b with index := MemberIndex.None } : either TFirst TSecond) =
      st.cell b := by
    rcases hc : st.cell b with ⟨idx, m⟩
    rw [hc] at h
    simp only at h
    rw [h]
  unfold Store.deallocateMember
  simp only [h, Store.set_index]
  rcases st with ⟨cell, trace⟩
  simp only [Store.mk.injEq, and_true] at e ⊢
  simp [e]

/-- C12: the destructor of a first-holding cell makes one call, the destructor of its `TFirst`
value; of a second-holding cell, one call, the destructor of its `TSecond` value; of a cell
tagged `None`, no call. It touches no other cell and always leaves its cell tagged `None`, so
a second destruction changes nothing. -/
theorem destructor_runs_live_variant_only {TFirst TSecond : Type}
    (st : Store TFirst TSecond) (b : Nat) :
    (∀ v, st.cell b = ⟨MemberIndex.First, member_t.first v⟩ →
      (st.destructor b).trace = st.trace ++ [Event.destroy_first (some v)]) ∧
    (∀ w, st.cell b = ⟨MemberIndex.Second, member_t.second w⟩ →
      (st.destructor b).trace = st.trace ++ [Event.destroy_second (some w)]) ∧
    ((st.cell b).index = MemberIndex.None → st.destructor b = st) ∧
    ((st.destructor b).cell b).index = MemberIndex.None ∧
    (∀ i, i ≠ b → (st.destructor b).cell i = st.cell i) ∧
    (st.destructor b).destructor b = st.destructor b := by
  refine ⟨?_, ?_, ?_, ?_, ?_, ?_⟩
  · intro v h
    rw [Store.destructor, Store.deallocateMember_trace, h]
    rfl
  · intro w h
    rw [Store.destructor, Store.deallocateMember_trace, h]
    rfl
  · intro h
    exact Store.deallocateMember_of_none st b h
  · exact Store.deallocateMember_index st b
  · intro i hi
    exact Store.deallocateMember_cell_other st b i hi
  · exact Store.deallocateMember_of_none _ b (Store.deallocateMember_index st b)

/-- C13 fails: in the sample store the cell at `1`, holding the second value `"err"`, is moved
into the cell at `0` and is left tagged `None`. `map` called on it afterwards reads its second
slot and calls the second callable on the object there: the second counter goes from `0` to
`1`. -/
theorem map_on_moved_from_cell_calls_second :
    ((sample_store.operator_assign 0 1).bind fun st =>
      (st.map 1 int_string
        (by_value id (count_first fun (n : Int) (u : Unit) => (n + 1, u)))
        (by_value (fun _ => "") (count_second fun (t : String) (u : Unit) => (t, u)))
        ((), ⟨0, 0⟩)).map
        fun r => ((st.cell 1).index, r.1)) =
      some (MemberIndex.None,
        (⟨MemberIndex.Second, member_t.second "err"⟩, ((), ⟨0, 1⟩))) := by
  rfl

/-- C13 as amended: on a cell tagged `None` the combinators take the second branch and never
call the first callable. They read `member.second`: when a `TSecond` object is alive there
(the cell was moved from while holding a second value) `map` and `match` call the second
callable on it, `foldSecond` its callable, and `foldFirst` passes it through; when none is
alive there the call has no defined result. -/
theorem combinators_on_empty_cell {TFirst TSecond TNewFirst TNewSecond TOutput σ : Type}
    (m : member_t TFirst TSecond) (s : σ) :
    (∀ (cv : Convertibility TNewFirst TNewSecond) (f : TFirst → σ → TNewFirst × σ)
        (g : TSecond → σ → TNewSecond × σ),
      either.map ⟨MemberIndex.None, m⟩ cv f g s =
        m.read_second.map fun w =>
          (either.construct (SourceType.of_second cv) (g w s).1, (g w s).2)) ∧
    (∀ (f : TFirst → σ → TOutput × σ) (g : TSecond → σ → TOutput × σ),
      either.match_ ⟨MemberIndex.None, m⟩ f g s = m.read_second.map fun w => g w s) ∧
    (∀ (cv : Convertibility TNewFirst TSecond)
        (f : TFirst → σ → either TNewFirst TSecond × σ),
      either.foldFirst ⟨MemberIndex.None, m⟩ cv f s =
        m.read_second.map fun w => (either.construct (SourceType.of_second cv) w, s)) ∧
    (∀ (cv : Convertibility TFirst TNewSecond)
        (g : TSecond → σ → either TFirst TNewSecond × σ),
      either.foldSecond ⟨MemberIndex.None, m⟩ cv g s = m.read_second.map fun w => g w s) := by
  refine ⟨fun cv f g => ?_, fun f g => ?_, fun cv f => ?_, fun cv g => ?_⟩ <;>
    simp [either.map, either.match_, either.foldFirst, either.foldSecond]

/-- The converting constructor on a source of type `TFirst` sets the tag `First` over the
first slot. -/
theorem either.construct_of_first {TFirst TSecond : Type} (cv : Convertibility TFirst TSecond)
    (v : TFirst) :
    either.construct (SourceType.of_first cv) v = ⟨MemberIndex.First, member_t.first v⟩ := by
  simp [either.construct, get_member_index_v, get_member_index, conditional_value_v,
    is_convertible_v, SourceType.of_first, member_t.init]
  cases cv.first_to_second <;> rfl

/-- What `map` returns on a cell in the store, with callables that take their parameter by
value, is what `either.map` returns on that cell with the same callables. -/
theorem Store.map_returns {TFirst TSecond TNewFirst TNewSecond σ : Type}
    (st : Store TFirst TSecond) (a : Nat) (cv : Convertibility TNewFirst TNewSecond)
    (l1 : TFirst → TFirst) (l2 : TSecond → TSecond) (f : TFirst → σ → TNewFirst × σ)
    (g : TSecond → σ → TNewSecond × σ) (s : σ) :
    (st.map a cv (by_value l1 f) (by_value l2 g) s).map Prod.fst =
      (st.cell a).map cv f g s := by
  unfold Store.map either.map
  split_ifs <;> cases (st.cell a).member <;>
    simp [member_t.read_first, member_t.read_second, by_value]

/-- What `match` returns on a cell in the store, with callables that take their parameter by
value, is what `either.match_` returns on that cell with the same callables. -/
theorem Store.match_returns {TFirst TSecond TOutput σ : Type}
    (st : Store TFirst TSecond) (a : Nat)
    (l1 : TFirst → TFirst) (l2 : TSecond → TSecond) (f : TFirst → σ → TOutput × σ)
    (g : TSecond → σ → TOutput × σ) (s : σ) :
    (st.match_ a (by_value l1 f) (by_value l2 g) s).map Prod.fst =
      (st.cell a).match_ f g s := by
  unfold Store.match_ either.match_
  split_ifs <;> cases (st.cell a).member <;>
    simp [member_t.read_first, member_t.read_second, by_value]

/-- C16, at an input where the claim fails: `either<long, bool>` built from the `bool` value
`true`. `get_member_index` gives the tag `First` because `bool` converts to `long`;
`member(std::move(value))` binds `member_t(bool&&)` and initialises the second slot. The tag
names a slot in which no object is alive. -/
theorem construct_tag_disagrees_with_slot :
    either.enable_if (SourceType.of_second long_bool) = true ∧
    either.construct (SourceType.of_second long_bool) true =
      ⟨MemberIndex.First, member_t.second true⟩ ∧
    (either.construct (SourceType.of_second long_bool) true).member.read_first = none := by
  refine ⟨rfl, rfl, rfl⟩

/-- C17, at an input where the claim fails: a new cell of `either<long, std::string>` is
move-constructed at address `5` from the cell at `0` of the sample store, and the
uninitialised `index` of the new cell happens to read as `Second`. `deallocateMember` then
runs `~TSecond()` on the second slot of the new cell, where no object is alive, before the
value `5` is moved in. -/
theorem move_construct_runs_destructor :
    (sample_store.move_construct 5 0 MemberIndex.Second).map
        (fun st => (st.trace, st.cell 5, st.cell 0)) =
      some ([Event.destroy_second none, Event.move_first 5],
        ⟨MemberIndex.First, member_t.first 5⟩, ⟨MemberIndex.None, member_t.first 5⟩) := by
  rfl

/-- A move of a cell into itself: `deallocateMember` makes its destructor calls and tags the
cell `None`, both tag assignments write `None`, and nothing is constructed. -/
theorem Store.moveMember_self {TFirst TSecond : Type} (st : Store TFirst TSecond) (a : Nat) :
    st.moveMember a a = some (st.deallocateMember a) := by
  have h := Store.deallocateMember_index st a
  have e := Store.deallocateMember_of_none _ a h
  unfold Store.moveMember
  generalize st.deallocateMember a = sd at h e
  have e1 : sd.set_index a MemberIndex.None = sd := by
    have := e
    unfold Store.deallocateMember at this
    simpa [h] using this
  simp only [h, e1]
  simp [h]

/-- C18: a move assignment of a cell holding a value to itself completes, makes exactly one
call, the destructor of that value, and leaves the cell tagged `None` with every other cell
untouched; the destructor of the cell afterwards makes no call. -/
theorem self_move_assign_empties {TFirst TSecond : Type} (st : Store TFirst TSecond)
    (a : Nat) (live : (st.cell a).holds_value) :
    ∃ st1 e, st.operator_assign a a = some st1 ∧
      (st.cell a).owned = [e] ∧ st1.trace = st.trace ++ [e] ∧
      (st1.cell a).index = MemberIndex.None ∧
      (∀ i, i ≠ a → st1.cell i = st.cell i) ∧
      (st1.destructor a).trace = st1.trace := by
  have tr := Store.deallocateMember_trace st a
  rw [either.deallocate_calls_of_consistent _ (either.consistent_of_holds_value _ live)] at tr
  have idx := Store.deallocateMember_index st a
  have owned : ∃ e, (st.cell a).owned = [e] := by
    rcases live with ⟨v, hv⟩ | ⟨w, hw⟩
    · exact ⟨Event.destroy_first (some v), by rw [hv]; rfl⟩
    · exact ⟨Event.destroy_second (some w), by rw [hw]; rfl⟩
  obtain ⟨e, he⟩ := owned
  refine ⟨st.deallocateMember a, e, Store.moveMember_self st a, he, ?_, idx,
    fun i hi => Store.deallocateMember_cell_other st a i hi, ?_⟩
  · rw [tr, he]
  · rw [Store.destructor, Store.deallocateMember_of_none _ a idx]

/-- C18, at the sample store: the cell at `0`, holding the first value `5`, is move-assigned
to itself. -/
theorem self_move_assign_empties_witness :
    ∃ st1 e, sample_store.operator_assign 0 0 = some st1 ∧
      (sample_store.cell 0).owned = [e] ∧ st1.trace = sample_store.trace ++ [e] ∧
      (st1.cell 0).index = MemberIndex.None ∧
      (∀ i, i ≠ 0 → st1.cell i = sample_store.cell i) ∧
      (st1.destructor 0).trace = st1.trace :=
  self_move_assign_empties sample_store 0 (Or.inl ⟨5, rfl⟩)

/-- C14 fails: in the sample store the cell at `0`, which holds the first value `5`, is
move-assigned to itself. The source of the move holds a value, and the move assignment
leaves its target, the same cell, tagged `None`. -/
theorem self_move_leaves_target_empty :
    (sample_store.operator_assign 0 0).map
        (fun st => ((st.cell 0).index, (st.cell 1).index, st.trace)) =
      some (MemberIndex.None, MemberIndex.Second, [Event.destroy_first (some 5)]) := by
  rfl

/-- One move assignment among consistent cells, from a source that is not tagged `None`
(the target may be the source itself): it completes, keeps the cells consistent, and the only
cell it newly tags `None` is its source. -/
theorem Store.operator_assign_from_live {TFirst TSecond : Type} (st : Store TFirst TSecond)
    (n a b : Nat) (ha : a < n) (hb : b < n)
    (cons : ∀ i, i < n → (st.cell i).consistent)
    (hsrc : (st.cell a).index ≠ MemberIndex.None) :
    ∃ st1, st.operator_assign b a = some st1 ∧ (∀ i, i < n → (st1.cell i).consistent) ∧
      ∀ i, (st1.cell i).index = MemberIndex.None →
        (st.cell i).index = MemberIndex.None ∨ i = a := by
  by_cases hab : a = b
  · subst hab
    refine ⟨st.deallocateMember a, Store.moveMember_self st a,
      (Store.account_destructor st n a ha cons).1, ?_⟩
    intro i hi
    by_cases hia : i = a
    · exact Or.inr hia
    · left; rw [← Store.deallocateMember_cell_other st a i hia]; exact hi
  · obtain ⟨st1, h1, cons1, -⟩ := Store.account_moveMember st n a b ha hb hab cons
    obtain ⟨st1', h1', cb, -, others, -⟩ := Store.moveMember_distinct st a b hab (cons a ha)
    have same : st1' = st1 := Option.some.inj (h1'.symm.trans h1)
    subst same
    refine ⟨st1', h1, cons1, ?_⟩
    intro i hi
    by_cases hia : i = a
    · exact Or.inr hia
    · by_cases hib : i = b
      · subst hib
        rw [cb, if_neg hsrc] at hi
        exact absurd hi hsrc
      · left; rw [← others i hia hib]; exact hi

/-- Along a chain of move assignments among consistent cells in which every move takes its
value from a cell not tagged `None`, the chain completes and a cell tagged `None` at the end
was tagged `None` at the start or was the source of a move. -/
theorem Store.assign_chain_from_live {TFirst TSecond : Type} (n : Nat)
    (chain : List (Nat × Nat)) :
    ∀ st : Store TFirst TSecond,
      (∀ i, i < n → (st.cell i).consistent) →
      (∀ p ∈ chain, p.1 < n ∧ p.2 < n) →
      st.sources_hold chain = true →
      ∃ st1, st.assign_chain chain = some st1 ∧
        ∀ i, (st1.cell i).index = MemberIndex.None →
          (st.cell i).index = MemberIndex.None ∨ ∃ p ∈ chain, p.2 = i := by
  induction chain with
  | nil => intro st _ _ _; exact ⟨st, rfl, fun i hi => Or.inl hi⟩
  | cons p rest ih =>
    intro st cons inside sources
    obtain ⟨b, a⟩ := p
    obtain ⟨hb, ha⟩ := inside (b, a) (List.mem_cons_self _ _)
    simp only [Store.sources_hold, Bool.and_eq_true, decide_eq_true_eq] at sources
    obtain ⟨hsrc, hrest⟩ := sources
    obtain ⟨st1, h1, cons1, none1⟩ := Store.operator_assign_from_live st n a b ha hb cons hsrc
    rw [h1] at hrest
    obtain ⟨st2, h2, none2⟩ :=
      ih st1 cons1 (fun q hq => inside q (List.mem_cons_of_mem _ hq)) hrest
    refine ⟨st2, by simp [Store.assign_chain, h1, h2], ?_⟩
    intro i hi
    rcases none2 i hi with h | ⟨q, hq, hqi⟩
    · rcases none1 i h with h0 | h0
      · exact Or.inl h0
      · exact Or.inr ⟨(b, a), List.mem_cons_self _ _, h0.symm⟩
    · exact Or.inr ⟨q, List.mem_cons_of_mem _ hq, hqi⟩

/-- A move between distinct cells from a cell holding a value completes: the target becomes
the cell the source was, and the source is tagged `None`. -/
theorem Store.moveMember_of_holds_value {TFirst TSecond : Type} (st : Store TFirst TSecond)
    (a b : Nat) (hab : a ≠ b) (live : (st.cell a).holds_value) :
    ∃ st1, st.moveMember b a = some st1 ∧ st1.cell b = st.cell a ∧
      (st1.cell a).index = MemberIndex.None := by
  obtain ⟨st1, h1, cb, ca, -, -⟩ :=
    Store.moveMember_distinct st a b hab (either.consistent_of_holds_value _ live)
  refine ⟨st1, h1, ?_, by rw [ca]⟩
  rw [cb]
  rcases live with ⟨f, hf⟩ | ⟨x, hx⟩
  · simp [hf]
  · simp [hx]

/-- Under the constraint of the converting constructor the tag it sets is not `None`. -/
theorem either.construct_index_ne_none {TFirst TSecond T : Type}
    (src : SourceType TFirst TSecond T) (value : T) (accepted : either.enable_if src = true) :
    (either.construct src value).index ≠ MemberIndex.None := by
  simp only [either.enable_if, Bool.or_eq_true] at accepted
  cases hf : is_convertible_v src.to_first <;> cases hs : is_convertible_v src.to_second <;>
    simp_all [either.construct, get_member_index_v, get_member_index, conditional_value_v]

/-- C14 as amended: start from cells at addresses below `n` that each hold a value and run a
chain of move assignments among them in which every move takes its value from a cell that
holds one when the move runs (the target may be the source itself). The chain completes, and
a cell tagged `None` at the end was the source of a move. A move assignment from a distinct
cell that holds a value leaves the target holding that value and the source tagged `None`;
the converting constructor, `map`, `mapFirst`, `mapSecond` on a cell holding a value, and the
pass-through branch of `foldFirst` and `foldSecond`, never give a cell tagged `None`. -/
theorem empty_only_source_of_move {TFirst TSecond : Type} (st : Store TFirst TSecond)
    (n : Nat) (chain : List (Nat × Nat))
    (live : ∀ i, i < n → (st.cell i).holds_value)
    (inside : ∀ p ∈ chain, p.1 < n ∧ p.2 < n)
    (sources : st.sources_hold chain = true) :
    (∃ st1, st.assign_chain chain = some st1 ∧
      ∀ i, i < n → (st1.cell i).index = MemberIndex.None → ∃ p ∈ chain, p.2 = i) ∧
    (∀ (st0 : Store TFirst TSecond) (a b : Nat), a ≠ b → (st0.cell a).holds_value →
      ∃ st2, st0.operator_assign b a = some st2 ∧ (st2.cell b).holds_value ∧
        (st2.cell a).index = MemberIndex.None) ∧
    (∀ (T : Type) (src : SourceType TFirst TSecond T) (value : T),
      either.enable_if src = true → (either.construct src value).index ≠ MemberIndex.None) ∧
    (∀ (c : either TFirst TSecond), c.holds_value →
      ∀ (TNewFirst TNewSecond σ : Type) (s : σ),
        (∀ (cv : Convertibility TNewFirst TNewSecond) (f : TFirst → σ → TNewFirst × σ)
            (g : TSecond → σ → TNewSecond × σ),
          ∃ r, c.map cv f g s = some r ∧ r.1.index ≠ MemberIndex.None) ∧
        (∀ (cv : Convertibility TNewFirst TSecond) (f : TFirst → σ → TNewFirst × σ),
          ∃ r, c.mapFirst cv f s = some r ∧ r.1.index ≠ MemberIndex.None) ∧
        (∀ (cv : Convertibility TFirst TNewSecond) (g : TSecond → σ → TNewSecond × σ),
          ∃ r, c.mapSecond cv g s = some r ∧ r.1.index ≠ MemberIndex.None)) ∧
    (∀ (TNew σ : Type) (s : σ),
      (∀ (w : TSecond) (cv : Convertibility TNew TSecond)
          (f : TFirst → σ → either TNew TSecond × σ),
        ∃ r, either.foldFirst ⟨MemberIndex.Second, member_t.second w⟩ cv f s = some r ∧
          r.1.index ≠ MemberIndex.None) ∧
      (∀ (v : TFirst) (cv : Convertibility TFirst TNew)
          (g : TSecond → σ → either TFirst TNew × σ),
        ∃ r, either.foldSecond ⟨MemberIndex.First, member_t.first v⟩ cv g s = some r ∧
          r.1.index ≠ MemberIndex.None)) := by
  have map_ok : ∀ (c : either TFirst TSecond), c.holds_value →
      ∀ (A B σ : Type) (s : σ) (cv : Convertibility A B) (f : TFirst → σ → A × σ)
        (g : TSecond → σ → B × σ), ∃ r, c.map cv f g s = some r ∧
          r.1.index ≠ MemberIndex.None := by
    intro c hc A B σ s cv f g
    rcases hc with ⟨v, hv⟩ | ⟨w, hw⟩
    · exact ⟨_, by rw [hv, either.map_of_first], by simp⟩
    · refine ⟨_, by rw [hw, either.map_of_second], ?_⟩
      cases is_convertible_v cv.second_to_first <;> simp
  refine ⟨?_, ?_, ?_, ?_, ?_⟩
  · obtain ⟨st1, h1, none1⟩ := Store.assign_chain_from_live n chain st
      (fun i hi => either.consistent_of_holds_value _ (live i hi)) inside sources
    refine ⟨st1, h1, fun i hi hnone => ?_⟩
    rcases none1 i hnone with h | h
    · rcases live i hi with ⟨v, hv⟩ | ⟨w, hw⟩
      · rw [hv] at h; cases h
      · rw [hw] at h; cases h
    · exact h
  · intro st0 a b hab la
    obtain ⟨st2, h2, hb, ha⟩ := Store.moveMember_of_holds_value st0 a b hab la
    exact ⟨st2, h2, by rw [hb]; exact la, ha⟩
  · intro T src value h
    exact either.construct_index_ne_none src value h
  · intro c hc A B σ s
    exact ⟨fun cv f g => map_ok c hc A B σ s cv f g,
      fun cv f => map_ok c hc A TSecond σ s cv f _,
      fun cv g => map_ok c hc TFirst B σ s cv _ g⟩
  · intro A σ s
    constructor
    · intro w cv f
      refine ⟨_, by rw [either.foldFirst, either.match_of_second], ?_⟩
      simp only [either.construct, get_member_index_v, get_member_index, conditional_value_v,
        SourceType.of_second, is_convertible_v, Option.isSome_some]
      cases cv.second_to_first <;> simp
    · intro v cv g
      refine ⟨_, by rw [either.foldSecond, either.match_of_first], ?_⟩
      simp [either.construct, get_member_index_v, get_member_index, conditional_value_v,
        SourceType.of_first, is_convertible_v]

/-- C14, at the sample store: the chain `1 = move(0)`, `2 = move(1)`, `2 = move(2)` over its
three cells; each source holds a value when its move runs, and the last move is a
self-move. -/
theorem empty_only_source_of_move_witness :
    sample_store.sources_hold [(1, 0), (2, 1), (2, 2)] = true ∧
    ∃ st1, sample_store.assign_chain [(1, 0), (2, 1), (2, 2)] = some st1 ∧
      ∀ i, i < 3 → (st1.cell i).index = MemberIndex.None →
        ∃ p ∈ [(1, 0), (2, 1), (2, 2)], p.2 = i :=
  ⟨rfl, (empty_only_source_of_move sample_store 3 [(1, 0), (2, 1), (2, 2)]
    (fun i _ => by
      by_cases h : i = 0
      · exact Or.inl ⟨5, by simp [sample_store, h]⟩
      · exact Or.inr ⟨"err", by simp [sample_store, h]⟩)
    (by decide) rfl).1⟩

/-! ### Composition of maps -/

/-- C19: on a cell holding a value, when the second type of each intermediate cell type does
not convert to its first type, `map(f1, g1)` followed by `map(f2, g2)` gives the cell and
outside state that `map` with the composed callables gives; `mapFirst(f1)` followed by
`mapSecond(g1)`, and `mapSecond(g1)` followed by `mapFirst(f1)`, both give what
`map(f1, g1)` gives. -/
theorem map_composition {A B A1 B1 A2 B2 σ : Type} (c : either A B) (live : c.holds_value)
    (cv1 : Convertibility A1 B1) (cv2 : Convertibility A2 B2)
    (cvm : Convertibility A1 B) (cvn : Convertibility A B1)
    (h1 : is_convertible_v cv1.second_to_first = false)
    (hm : is_convertible_v cvm.second_to_first = false)
    (hn : is_convertible_v cvn.second_to_first = false)
    (f1 : A → σ → A1 × σ) (g1 : B → σ → B1 × σ) (f2 : A1 → σ → A2 × σ)
    (g2 : B1 → σ → B2 × σ) (s : σ) :
    ((c.map cv1 f1 g1 s).bind fun r => r.1.map cv2 f2 g2 r.2) =
        c.map cv2 (then_call f1 f2) (then_call g1 g2) s ∧
      ((c.mapFirst cvm f1 s).bind fun r => r.1.mapSecond cv1 g1 r.2) = c.map cv1 f1 g1 s ∧
      ((c.mapSecond cvn g1 s).bind fun r => r.1.mapFirst cv1 f1 r.2) = c.map cv1 f1 g1 s := by
  rcases live with ⟨v, hv⟩ | ⟨w, hw⟩
  · subst hv
    refine ⟨?_, ?_, ?_⟩
    · simp [either.map_of_first, then_call]
    · simp [either.mapFirst, either.mapSecond, either.map_of_first]
    · simp [either.mapFirst, either.mapSecond, either.map_of_first]
  · subst hw
    refine ⟨?_, ?_, ?_⟩
    · simp [either.map_of_second, then_call, h1]
    · simp [either.mapFirst, either.mapSecond, either.map_of_second, hm]
    · simp [either.mapFirst, either.mapSecond, either.map_of_second, hn]

/-- C19, at a cell of `either<long, std::string>` holding the second value `"err"`, mapped
through cell types whose second type `std::string` does not convert to the first type
`long`. -/
theorem map_composition_witness :
    (((⟨MemberIndex.Second, member_t.second "err"⟩ : either Int String).map int_string
          (fun n (u : Unit) => (n + 1, u)) (fun t u => (t ++ "!", u)) ()).bind
        fun r => r.1.map int_string (fun n u => (2 * n, u)) (fun t u => (t ++ "?", u)) r.2) =
      (⟨MemberIndex.Second, member_t.second "err"⟩ : either Int String).map int_string
        (then_call (fun n (u : Unit) => (n + 1, u)) (fun n u => (2 * n, u)))
        (then_call (fun t (u : Unit) => (t ++ "!", u)) (fun t u => (t ++ "?", u))) () :=
  (map_composition (⟨MemberIndex.Second, member_t.second "err"⟩ : either Int String)
    (Or.inr ⟨"err", rfl⟩) int_string int_string int_string int_string rfl rfl rfl
    (fun n (u : Unit) => (n + 1, u)) (fun t u => (t ++ "!", u)) (fun n u => (2 * n, u))
    (fun t u => (t ++ "?", u)) ()).1

/-! ### Destruction of a cell as the converting constructor builds it -/

/-- C7, at an input where the claim fails: a cell of `either<long, bool>` built by the
converting constructor from the `bool` value `true` owns that value in its second slot under
the tag `First`. With no move at all, the destructor of the cell calls `~TFirst()` on the
first slot, where no object is alive, and makes no destructor call for the owned `bool`,
which stays in its slot; and a move assignment out of the cell reads `member.first`, which
has no defined result. -/
theorem built_cell_value_never_destroyed :
    bool_built_store.cell 0 = ⟨MemberIndex.First, member_t.second true⟩ ∧
    ((bool_built_store.assign_chain []).map fun st =>
        ((st.destroy_all [0]).trace, ((st.destroy_all [0]).cell 0).member)) =
      some ([Event.destroy_first none], member_t.second true) ∧
    (bool_built_store.operator_assign 1 0).isNone = true := by
  refine ⟨rfl, rfl, rfl⟩
